import Mathlib

/-!
# Verification of the preset normalizer and serializer (src/lib/presetUtils.ts)

Shallow embedding of the two core components of the repository:

* `validateAndNormalizeAISettings` — maps an untyped JSON-shaped value to a
  typed, range-clamped settings record;
* `convertSettingsToXMP` — renders a settings record as the ordered list of
  elements placed under the single rdf:Description node of the XMP document.

JavaScript finite numbers are modelled by rationals (`ℚ`): the operations the
code performs on numbers (comparisons for `clamp`, the `Number.isInteger`
test) are exact on every representable double, so `ℚ` is a faithful carrier.
`NaN` is a separate constructor of the value type (in JS it has
`typeof x` is the string "number" but the `isNaN` guard fails it; the code treats it as
invalid, and so does the embedding).
-/

/-- An untyped JavaScript/JSON value, the input of the normalizer.
`jundefined` is the JS value `undefined`; `jnan` is the JS number `NaN`. -/
inductive JVal : Type where
  | jnum (q : ℚ)
  | jnan
  | jstr (s : String)
  | jbool (b : Bool)
  | jnull
  | jundefined
  | jarr (elems : List JVal)
  | jobj (fields : List (String × JVal))

/-- A value stored in a normalized settings record: the normalizer only ever
stores numbers, strings, or tone curves (lists of coordinate pairs). -/
inductive SettingVal : Type where
  | num (q : ℚ)
  | str (s : String)
  | curve (pts : List (ℚ × ℚ))
deriving DecidableEq, Repr

/-- The JavaScript test `typeof v` equals "object": true for plain objects,
arrays and `null`. -/
def JVal.typeofObject : JVal → Bool
  | .jobj _ => true
  | .jarr _ => true
  | .jnull => true
  | _ => false

/-- Whether the value is the JS `null`. -/
def JVal.isNull : JVal → Bool
  | .jnull => true
  | _ => false

/-- Key presence, `key in rawSettings`: a key test on an object.  The settings keys the
code queries are never numeric indices or built-in properties, so arrays and
primitives report no keys. -/
def JVal.hasKey : JVal → String → Bool
  | .jobj fs, k => (fs.find? (fun p => p.1 == k)).isSome
  | _, _ => false

/-- Property access `rawSettings[key]`, yielding `undefined` when the key is
absent or the receiver is not an object. -/
def JVal.get : JVal → String → JVal
  | .jobj fs, k =>
    match fs.find? (fun p => p.1 == k) with
    | some p => p.2
    | none => .jundefined
  | _, _ => .jundefined

/-- Model of `Math.max` on two non-NaN numbers. -/
def jsMax (a b : ℚ) : ℚ := if a ≤ b then b else a

/-- Model of `Math.min` on two non-NaN numbers. -/
def jsMin (a b : ℚ) : ℚ := if a ≤ b then a else b

/-- Helper function to clamp a number between a min and a max value:
`Math.max(min, Math.min(max, value))`. -/
def clamp (value mn mx : ℚ) : ℚ := jsMax mn (jsMin mx value)

/-- Conditional clamp: clamp(v, min, max) when both bounds are supplied,
v unchanged otherwise. -/
def clampOpt (v : ℚ) (mn mx : Option ℚ) : ℚ :=
  match mn, mx with
  | some a, some b => clamp v a b
  | _, _ => v

/-- The `getNumber` helper of `validateAndNormalizeAISettings`: safely get and
validate a number field.  Mirrors the source line by line: early return when
the key is absent and no default given; substitution of the default when the
looked-up value is `undefined`; rejection of non-numbers and `NaN`; rejection
of fractional values when `allowFloats` is false; clamping of the accepted
value (and of the default on the fallback paths) when a range is supplied. -/
def numDefault (v : JVal) (dflt : Option ℚ) : JVal :=
  match v, dflt with
  | .jundefined, some d => .jnum d
  | v, _ => v

def getNumber (raw : JVal) (key : String) (mn mx : Option ℚ) (dflt : Option ℚ)
    (allowFloats : Bool) : Option ℚ :=
  if !raw.hasKey key && dflt.isNone then none else
  match numDefault (raw.get key) dflt with
  | .jnum q =>
    if !allowFloats && !q.isInt then
      dflt.map (fun d => clampOpt d mn mx)
    else
      some (clampOpt q mn mx)
  | _ => dflt.map (fun d => clampOpt d mn mx)

/-- The `getString` helper: safely get a string field; a present value of any
other type is replaced by the default (which may be absent). -/
def strDefault (v : JVal) (dflt : Option String) : JVal :=
  match v, dflt with
  | .jundefined, some d => .jstr d
  | v, _ => v

def getString (raw : JVal) (key : String) (dflt : Option String) : Option String :=
  if !raw.hasKey key && dflt.isNone then none else
  match strDefault (raw.get key) dflt with
  | .jstr s => some s
  | _ => dflt

/-- A candidate tone-curve point is kept only when it is a 2-element array of
two non-NaN numbers; each coordinate is independently clamped to [0, 255]. -/
def validCurvePoint : JVal → Option (ℚ × ℚ)
  | .jarr [.jnum x, .jnum y] => some (clamp x 0 255, clamp y 0 255)
  | _ => none

/-- The `getToneCurve` helper: absent key or non-array value yields an absent
curve; otherwise invalid points are dropped, and a curve with zero surviving
points is absent. -/
def getToneCurve (raw : JVal) (key : String) : Option (List (ℚ × ℚ)) :=
  if !raw.hasKey key then none else
  match raw.get key with
  | .jarr pts =>
    let valid := pts.filterMap validCurvePoint
    if valid.isEmpty then none else some valid
  | _ => none

/-- The known process versions accepted by the normalizer (source line 657). -/
def knownProcessVersions : List String :=
  ["6.7", "11.0", "12.0", "13.0", "13.1", "13.2", "13.3", "14.0", "15.0", "16.0"]

/-- One field of the normalized record: which helper produces it and with
which arguments.  `pvF` is the string field with the extra process-version
membership gate of source lines 656-660. -/
inductive FieldSpec : Type where
  | numF (key : String) (mn mx : ℚ) (dflt : Option ℚ) (allowFloats : Bool)
  | strF (key : String) (dflt : Option String)
  | curveF (key : String)
  | pvF (key : String) (dflt : String)
deriving DecidableEq, Repr

/-- The record key a field spec writes to. -/
def FieldSpec.key : FieldSpec → String
  | .numF k _ _ _ _ => k
  | .strF k _ => k
  | .curveF k => k
  | .pvF k _ => k

/-- Evaluate one field of the normalized record from the raw input. -/
def evalField (raw : JVal) : FieldSpec → Option SettingVal
  | .numF k mn mx dflt af => (getNumber raw k (some mn) (some mx) dflt af).map .num
  | .strF k dflt => (getString raw k dflt).map .str
  | .curveF k => (getToneCurve raw k).map .curve
  | .pvF k dflt =>
    match getString raw k (some dflt) with
    | some s => some (.str (if knownProcessVersions.contains s then s else dflt))
    | none => some (.str dflt)

/-- The `HSL_COLORS` list of the source: the 8 fixed hue buckets. -/
def HSL_COLORS : List String :=
  ["Red", "Orange", "Yellow", "Green", "Aqua", "Blue", "Purple", "Magenta"]

/-- The 24 per-bucket HSL fields, produced by the `HSL_COLORS.forEach` loop of
source lines 613-617: for each colour, hue, saturation and luminance, each an
integer-only field in [-100, 100] with default 0. -/
def hslFieldSpecs : List FieldSpec :=
  (HSL_COLORS.map (fun color =>
    [FieldSpec.numF ("hslHue" ++ color) (-100) 100 (some 0) false,
     FieldSpec.numF ("hslSaturation" ++ color) (-100) 100 (some 0) false,
     FieldSpec.numF ("hslLuminance" ++ color) (-100) 100 (some 0) false])).flatten

/-- Every field assignment of `validateAndNormalizeAISettings`, in the order
of the source (lines 589-660): key, helper, range, default, integer-only
flag. -/
def fieldSpecs : List FieldSpec :=
  [FieldSpec.numF "exposure" (-5) 5 (some 0) true,
   FieldSpec.numF "contrast" (-100) 100 (some 0) true,
   FieldSpec.numF "highlights" (-100) 100 (some 0) true,
   FieldSpec.numF "shadows" (-100) 100 (some 0) true,
   FieldSpec.numF "whites" (-100) 100 (some 0) true,
   FieldSpec.numF "blacks" (-100) 100 (some 0) true,
   FieldSpec.numF "texture" (-100) 100 (some 0) true,
   FieldSpec.numF "clarity" (-100) 100 (some 0) true,
   FieldSpec.numF "dehaze" (-100) 100 (some 0) true,
   FieldSpec.numF "vibrance" (-100) 100 (some 0) true,
   FieldSpec.numF "saturation" (-100) 100 (some 0) true,
   FieldSpec.numF "temperature" 2000 50000 (some 6500) false,
   FieldSpec.numF "tint" (-150) 150 (some 0) false,
   FieldSpec.strF "toneCurvePV" (some "2012"),
   FieldSpec.curveF "toneCurve",
   FieldSpec.curveF "toneCurveRed",
   FieldSpec.curveF "toneCurveGreen",
   FieldSpec.curveF "toneCurveBlue"]
  ++ hslFieldSpecs
  ++ [FieldSpec.numF "sharpeningAmount" 0 150 (some 0) false,
   FieldSpec.numF "sharpeningRadius" (mkRat 1 2) 3 (some 1) true,
   FieldSpec.numF "sharpeningDetail" 0 100 (some 25) false,
   FieldSpec.numF "sharpeningMasking" 0 100 (some 0) false,
   FieldSpec.numF "grainAmount" 0 100 (some 0) false,
   FieldSpec.numF "grainSize" 0 100 (some 25) false,
   FieldSpec.numF "grainFrequency" 0 100 (some 50) false,
   FieldSpec.numF "colorGradeShadowHue" 0 359 (some 0) false,
   FieldSpec.numF "colorGradeShadowSat" 0 100 (some 0) false,
   FieldSpec.numF "colorGradeShadowLum" (-100) 100 (some 0) true,
   FieldSpec.numF "colorGradeMidtoneHue" 0 359 (some 0) false,
   FieldSpec.numF "colorGradeMidtoneSat" 0 100 (some 0) false,
   FieldSpec.numF "colorGradeMidtoneLum" (-100) 100 (some 0) true,
   FieldSpec.numF "colorGradeHighlightHue" 0 359 (some 0) false,
   FieldSpec.numF "colorGradeHighlightSat" 0 100 (some 0) false,
   FieldSpec.numF "colorGradeHighlightLum" (-100) 100 (some 0) true,
   FieldSpec.numF "colorGradeGlobalHue" 0 359 (some 0) false,
   FieldSpec.numF "colorGradeGlobalSat" 0 100 (some 0) false,
   FieldSpec.numF "colorGradeGlobalLum" (-100) 100 (some 0) true,
   FieldSpec.numF "colorGradeBlending" 0 100 (some 50) false,
   FieldSpec.numF "colorGradeBalance" (-100) 100 (some 0) true,
   FieldSpec.numF "splitToningHighlightHue" 0 359 none false,
   FieldSpec.numF "splitToningHighlightSaturation" 0 100 none false,
   FieldSpec.numF "splitToningShadowHue" 0 359 none false,
   FieldSpec.numF "splitToningShadowSaturation" 0 100 none false,
   FieldSpec.numF "splitToningBalance" (-100) 100 none true,
   FieldSpec.strF "cameraProfile" (some "Adobe Standard"),
   FieldSpec.pvF "processVersion" "13.3"]

/-- The final cleanup pass of source lines 663-668: keys whose computed value
is `undefined` are deleted, all others kept in insertion order. -/
def presentFields (l : List (String × Option SettingVal)) : List (String × SettingVal) :=
  l.filterMap (fun p => p.2.map (fun v => (p.1, v)))

/-- The normalizer `validateAndNormalizeAISettings`: a structurally
nonsensical top-level input (one whose typeof is not "object", or null) yields the
minimal record; otherwise each field is computed independently by its helper
and absent fields are stripped. -/
def validateAndNormalizeAISettings (raw : JVal) : List (String × SettingVal) :=
  if !raw.typeofObject || raw.isNull then [("processVersion", SettingVal.str "13.3")]
  else presentFields (fieldSpecs.map (fun s => (s.key, evalField raw s)))

/-- First-match association-list lookup; JS object property access on a
settings record. -/
def findField {α : Type} : List (String × α) → String → Option α
  | [], _ => none
  | (k, v) :: rest, key => if k = key then some v else findField rest key

/-- Turn a normalized record back into an untyped JS value (the record is
itself a plain JS object, so re-normalizing it means feeding it back in). -/
def settingValToJVal : SettingVal → JVal
  | .num q => .jnum q
  | .str s => .jstr s
  | .curve pts => .jarr (pts.map (fun p => .jarr [.jnum p.1, .jnum p.2]))

/-- A settings record viewed as an untyped JS object. -/
def recordToJVal (r : List (String × SettingVal)) : JVal :=
  .jobj (r.map (fun p => (p.1, settingValToJVal p.2)))

/-! ## The serializer (convertSettingsToXMP)

The XMP document is modelled by the ordered list of elements the code places
under the single rdf:Description node.  A scalar element keeps its
`SettingVal` (the source renders it with `String(value)`); a curve element
keeps its point list (the source renders one rdf:li per point inside an
rdf:Seq, which is omitted when the list is empty). -/

/-- One element under the rdf:Description node. -/
inductive XNode : Type where
  | scalar (tag : String) (v : SettingVal)
  | curveSeq (tag : String) (pts : List (ℚ × ℚ))
deriving DecidableEq, Repr

/-- The crs tag of an element. -/
def XNode.tag : XNode → String
  | .scalar t _ => t
  | .curveSeq t _ => t

/-- The `tagMap` of `convertSettingsToXMP` (source lines 331-386), including
the dynamically added HSL entries.  `processVersion` has no entry. -/
def tagMapList : List (String × String) :=
  [("exposure", "Exposure2012"),
   ("contrast", "Contrast2012"),
   ("highlights", "Highlights2012"),
   ("shadows", "Shadows2012"),
   ("whites", "Whites2012"),
   ("blacks", "Blacks2012"),
   ("texture", "Texture"),
   ("clarity", "Clarity2012"),
   ("dehaze", "Dehaze"),
   ("vibrance", "Vibrance"),
   ("saturation", "Saturation"),
   ("temperature", "Temperature"),
   ("tint", "Tint"),
   ("toneCurvePV", "ToneCurvePV"),
   ("toneCurve", "ToneCurvePV2012"),
   ("toneCurveRed", "ToneCurvePV2012Red"),
   ("toneCurveGreen", "ToneCurvePV2012Green"),
   ("toneCurveBlue", "ToneCurvePV2012Blue"),
   ("sharpeningAmount", "Sharpness"),
   ("sharpeningRadius", "SharpenRadius"),
   ("sharpeningDetail", "SharpenDetail"),
   ("sharpeningMasking", "SharpenEdgeMasking"),
   ("grainAmount", "GrainAmount"),
   ("grainSize", "GrainSize"),
   ("grainFrequency", "GrainFrequency"),
   ("colorGradeShadowHue", "ColorGradeShadowHue"),
   ("colorGradeShadowSat", "ColorGradeShadowSat"),
   ("colorGradeShadowLum", "ColorGradeShadowLum"),
   ("colorGradeMidtoneHue", "ColorGradeMidtoneHue"),
   ("colorGradeMidtoneSat", "ColorGradeMidtoneSat"),
   ("colorGradeMidtoneLum", "ColorGradeMidtoneLum"),
   ("colorGradeHighlightHue", "ColorGradeHighlightHue"),
   ("colorGradeHighlightSat", "ColorGradeHighlightSat"),
   ("colorGradeHighlightLum", "ColorGradeHighlightLum"),
   ("colorGradeGlobalHue", "ColorGradeGlobalHue"),
   ("colorGradeGlobalSat", "ColorGradeGlobalSat"),
   ("colorGradeGlobalLum", "ColorGradeGlobalLum"),
   ("colorGradeBlending", "ColorGradeBlending"),
   ("colorGradeBalance", "ColorGradeBalance"),
   ("splitToningHighlightHue", "SplitToningHighlightHue"),
   ("splitToningHighlightSaturation", "SplitToningHighlightSaturation"),
   ("splitToningShadowHue", "SplitToningShadowHue"),
   ("splitToningShadowSaturation", "SplitToningShadowSaturation"),
   ("splitToningBalance", "SplitToningBalance"),
   ("cameraProfile", "CameraProfile")]
  ++ (HSL_COLORS.map (fun c =>
    [("hslHue" ++ c, "HueAdjustment" ++ c),
     ("hslSaturation" ++ c, "SaturationAdjustment" ++ c),
     ("hslLuminance" ++ c, "LuminanceAdjustment" ++ c)])).flatten

/-- Lookup in the tag map (`tagMap[key]`, undefined when absent). -/
def tagMap (k : String) : Option String := findField tagMapList k

/-- Character-list version of the JS `String.prototype.startsWith` test. -/
def charListStartsWith : List Char → List Char → Bool
  | _, [] => true
  | [], _ :: _ => false
  | c :: cs, d :: ds => c == d && charListStartsWith cs ds

/-- The JavaScript test `s.startsWith(p)`. -/
def strStartsWith (s p : String) : Bool := charListStartsWith s.data p.data

/-- The main serializer loop (source lines 403-424): iterate the record's own
entries in order, skip keys without a tag-map entry, skip tags already seen,
render curve-typed tone-curve fields as nested sequences and everything else
as a scalar element. -/
def loopGo : List (String × SettingVal) → List String → List XNode
  | [], _ => []
  | (k, v) :: rest, seen =>
    match tagMap k with
    | none => loopGo rest seen
    | some tag =>
      if seen.contains tag then loopGo rest seen
      else
        (match v with
         | SettingVal.curve pts =>
           if strStartsWith k "toneCurve" && !(k == "toneCurvePV") then XNode.curveSeq tag pts
           else XNode.scalar tag v
         | _ => XNode.scalar tag v) :: loopGo rest (tag :: seen)

/-- JavaScript truthiness of a settings value: 0 and the empty string are
falsy, arrays are always truthy. -/
def truthy : SettingVal → Bool
  | SettingVal.num q => !(q == 0)
  | SettingVal.str s => !(s == "")
  | SettingVal.curve _ => true

/-- Truthiness of an optional field (`undefined` is falsy). -/
def truthyOpt : Option SettingVal → Bool
  | none => false
  | some v => truthy v

/-- The condition of source line 433: `settings.toneCurvePV ||
settings.toneCurve || settings.toneCurveRed || settings.toneCurveGreen ||
settings.toneCurveBlue`. -/
def hasToneCurveFlag (settings : List (String × SettingVal)) : Bool :=
  truthyOpt (findField settings "toneCurvePV") ||
  truthyOpt (findField settings "toneCurve") ||
  truthyOpt (findField settings "toneCurveRed") ||
  truthyOpt (findField settings "toneCurveGreen") ||
  truthyOpt (findField settings "toneCurveBlue")

/-- The condition of source line 437: `Object.keys(settings).some(key =>
key.startsWith("hsl"))`. -/
def hasHSLFlag (settings : List (String × SettingVal)) : Bool :=
  settings.any (fun p => strStartsWith p.1 "hsl")

/-- The text of the ProcessVersion metadata element:
`settings.processVersion || "6.7"` (JS `||` falls back on any falsy value). -/
def processVersionValue (settings : List (String × SettingVal)) : SettingVal :=
  match findField settings "processVersion" with
  | some v => if truthy v then v else SettingVal.str "6.7"
  | none => SettingVal.str "6.7"

/-- The serializer `convertSettingsToXMP`: the ordered elements under rdf:Description — the
mapped fields, then the three fixed metadata elements, then the two
conditional summary markers. -/
def convertSettingsToXMP (settings : List (String × SettingVal)) (presetName : String) :
    List XNode :=
  loopGo settings []
  ++ [XNode.scalar "PresetType" (SettingVal.str "Normal"),
      XNode.scalar "PresetName" (SettingVal.str presetName),
      XNode.scalar "ProcessVersion" (processVersionValue settings)]
  ++ (if hasToneCurveFlag settings then [XNode.scalar "HasToneCurve" (SettingVal.str "True")] else [])
  ++ (if hasHSLFlag settings then [XNode.scalar "HasSettings" (SettingVal.str "True")] else [])

/-! ## Wellformedness facts used by the claim proofs -/

/-- Per-field sanity of the normalizer's declaration table, checked once by
evaluation: ranges are ordered, integer-only fields have integer bounds, and
the process-version default is itself a known version. -/
def specWF : FieldSpec → Prop
  | .numF _ mn mx _ af => mn ≤ mx ∧ (af = false → mn.isInt = true ∧ mx.isInt = true)
  | .strF _ _ => True
  | .curveF _ => True
  | .pvF _ dflt => dflt ∈ knownProcessVersions

/-- The record that claim C9 expects `validateAndNormalizeAISettings {}` to
produce: every field with a documented default, present at that default. -/
def defaultSettingsRecord : List (String × SettingVal) :=
  [("exposure", SettingVal.num 0),
   ("contrast", SettingVal.num 0),
   ("highlights", SettingVal.num 0),
   ("shadows", SettingVal.num 0),
   ("whites", SettingVal.num 0),
   ("blacks", SettingVal.num 0),
   ("texture", SettingVal.num 0),
   ("clarity", SettingVal.num 0),
   ("dehaze", SettingVal.num 0),
   ("vibrance", SettingVal.num 0),
   ("saturation", SettingVal.num 0),
   ("temperature", SettingVal.num 6500),
   ("tint", SettingVal.num 0),
   ("toneCurvePV", SettingVal.str "2012"),
   ("hslHueRed", SettingVal.num 0),
   ("hslSaturationRed", SettingVal.num 0),
   ("hslLuminanceRed", SettingVal.num 0),
   ("hslHueOrange", SettingVal.num 0),
   ("hslSaturationOrange", SettingVal.num 0),
   ("hslLuminanceOrange", SettingVal.num 0),
   ("hslHueYellow", SettingVal.num 0),
   ("hslSaturationYellow", SettingVal.num 0),
   ("hslLuminanceYellow", SettingVal.num 0),
   ("hslHueGreen", SettingVal.num 0),
   ("hslSaturationGreen", SettingVal.num 0),
   ("hslLuminanceGreen", SettingVal.num 0),
   ("hslHueAqua", SettingVal.num 0),
   ("hslSaturationAqua", SettingVal.num 0),
   ("hslLuminanceAqua", SettingVal.num 0),
   ("hslHueBlue", SettingVal.num 0),
   ("hslSaturationBlue", SettingVal.num 0),
   ("hslLuminanceBlue", SettingVal.num 0),
   ("hslHuePurple", SettingVal.num 0),
   ("hslSaturationPurple", SettingVal.num 0),
   ("hslLuminancePurple", SettingVal.num 0),
   ("hslHueMagenta", SettingVal.num 0),
   ("hslSaturationMagenta", SettingVal.num 0),
   ("hslLuminanceMagenta", SettingVal.num 0),
   ("sharpeningAmount", SettingVal.num 0),
   ("sharpeningRadius", SettingVal.num 1),
   ("sharpeningDetail", SettingVal.num 25),
   ("sharpeningMasking", SettingVal.num 0),
   ("grainAmount", SettingVal.num 0),
   ("grainSize", SettingVal.num 25),
   ("grainFrequency", SettingVal.num 50),
   ("colorGradeShadowHue", SettingVal.num 0),
   ("colorGradeShadowSat", SettingVal.num 0),
   ("colorGradeShadowLum", SettingVal.num 0),
   ("colorGradeMidtoneHue", SettingVal.num 0),
   ("colorGradeMidtoneSat", SettingVal.num 0),
   ("colorGradeMidtoneLum", SettingVal.num 0),
   ("colorGradeHighlightHue", SettingVal.num 0),
   ("colorGradeHighlightSat", SettingVal.num 0),
   ("colorGradeHighlightLum", SettingVal.num 0),
   ("colorGradeGlobalHue", SettingVal.num 0),
   ("colorGradeGlobalSat", SettingVal.num 0),
   ("colorGradeGlobalLum", SettingVal.num 0),
   ("colorGradeBlending", SettingVal.num 50),
   ("colorGradeBalance", SettingVal.num 0),
   ("cameraProfile", SettingVal.str "Adobe Standard"),
   ("processVersion", SettingVal.str "13.3")]

/-- The settings keys of the data model (the keys the normalizer can ever
produce). -/
def settingsKeys : List String := fieldSpecs.map FieldSpec.key

/-- A record is key-wellformed when its keys are distinct known settings
fields — the shape of a typed Settings Record (JS objects cannot repeat
keys, and the typed interface has exactly the declared fields). -/
def keysWF (settings : List (String × SettingVal)) : Prop :=
  (settings.map Prod.fst).Nodup ∧ ∀ p ∈ settings, p.1 ∈ settingsKeys

/-- The spec-mandated invariant on the process-version of a Settings Record:
if present it is a string belonging to the known-version set. -/
def pvWF (settings : List (String × SettingVal)) : Prop :=
  ∀ v, findField settings "processVersion" = some v →
    ∃ s, v = SettingVal.str s ∧ s ∈ knownProcessVersions

/-- A present value that `getNumber` rejects outright: not a number at all
(string, boolean, object, array, null, NaN). -/
def nonNumeric : JVal → Bool
  | .jnum _ => false
  | .jundefined => false
  | _ => true

/-- The 24 per-bucket HSL field keys. -/
def hslKeys : List String := hslFieldSpecs.map FieldSpec.key

instance specWF.decidable : (s : FieldSpec) → Decidable (specWF s)
  | .numF _ _ _ _ _ => by unfold specWF; infer_instance
  | .strF _ _ => by unfold specWF; infer_instance
  | .curveF _ => by unfold specWF; infer_instance
  | .pvF _ _ => by unfold specWF; infer_instance


/-! ## Basic lemmas about clamp and value access -/

theorem jsMax_eq_max (a b : ℚ) : jsMax a b = max a b := by
  rw [jsMax, max_def]

theorem jsMin_eq_min (a b : ℚ) : jsMin a b = min a b := by
  rw [jsMin, min_def]

theorem clamp_idem (v mn mx : ℚ) : clamp (clamp v mn mx) mn mx = clamp v mn mx := by
  unfold clamp jsMax jsMin
  split_ifs <;> first | rfl | linarith

theorem clamp_isInt (v mn mx : ℚ) (hv : v.isInt = true) (hmn : mn.isInt = true)
    (hmx : mx.isInt = true) : (clamp v mn mx).isInt = true := by
  unfold clamp jsMax jsMin
  split_ifs <;> assumption

theorem clamp_mem_Icc (v mn mx : ℚ) (h : mn ≤ mx) : mn ≤ clamp v mn mx ∧ clamp v mn mx ≤ mx := by
  unfold clamp jsMax jsMin
  split_ifs <;> constructor <;> linarith

theorem JVal.hasKey_of_get_ne_undefined (raw : JVal) (k : String)
    (h : raw.get k ≠ .jundefined) : raw.hasKey k = true := by
  cases raw
  case jobj fs =>
    rw [JVal.get] at h
    rw [JVal.hasKey]
    cases hf : fs.find? (fun p => p.1 == k) with
    | none => rw [hf] at h; exact absurd rfl h
    | some p => simp
  all_goals exact absurd rfl h

/-! ## Lemmas about getNumber -/

theorem getNumber_num (raw : JVal) (k : String) (mn mx : ℚ) (dflt : Option ℚ) (af : Bool)
    (q : ℚ) (hget : raw.get k = .jnum q) (hint : af = false → q.isInt = true) :
    getNumber raw k (some mn) (some mx) dflt af = some (clamp q mn mx) := by
  have hk : raw.hasKey k = true := raw.hasKey_of_get_ne_undefined k (by rw [hget]; simp)
  unfold getNumber
  rw [hk, hget]
  cases af with
  | true => simp [numDefault, clampOpt]
  | false => simp [numDefault, hint rfl, clampOpt]

theorem getNumber_nonNumeric (raw : JVal) (k : String) (mn mx : ℚ) (dflt : Option ℚ)
    (af : Bool) (v : JVal) (hget : raw.get k = v) (hv : nonNumeric v = true) :
    getNumber raw k (some mn) (some mx) dflt af = dflt.map (fun d => clamp d mn mx) := by
  have hne : raw.get k ≠ .jundefined := by rw [hget]; cases v <;> simp_all [nonNumeric]
  have hk : raw.hasKey k = true := raw.hasKey_of_get_ne_undefined k hne
  unfold getNumber
  rw [hk, hget]
  cases v <;> simp_all [nonNumeric, numDefault, clampOpt]

theorem getNumber_fractional (raw : JVal) (k : String) (mn mx : ℚ) (dflt : Option ℚ)
    (q : ℚ) (hget : raw.get k = .jnum q) (hq : q.isInt = false) :
    getNumber raw k (some mn) (some mx) dflt false = dflt.map (fun d => clamp d mn mx) := by
  have hk : raw.hasKey k = true := raw.hasKey_of_get_ne_undefined k (by rw [hget]; simp)
  unfold getNumber
  rw [hk, hget]
  simp [numDefault, hq, clampOpt]

theorem getNumber_absent (raw : JVal) (k : String) (mn mx : ℚ) (dflt : Option ℚ) (af : Bool)
    (hk : raw.hasKey k = false) :
    getNumber raw k (some mn) (some mx) dflt af = dflt.map (fun d => clamp d mn mx) := by
  have hget : raw.get k = .jundefined := by
    by_contra h
    rw [raw.hasKey_of_get_ne_undefined k h] at hk
    exact Bool.true_eq_false.mp hk
  unfold getNumber
  rw [hk, hget]
  cases dflt with
  | none => simp
  | some d => simp [numDefault, clampOpt]

theorem getNumber_none_dflt (raw : JVal) (k : String) (mn mx dflt : Option ℚ) (af : Bool)
    (h : getNumber raw k mn mx dflt af = none) : dflt = none := by
  cases dflt with
  | none => rfl
  | some d =>
    exfalso
    unfold getNumber at h
    rcases hg : raw.get k with q | _ | s | b | _ | _ | es | fs <;>
      (rw [hg] at h
       simp [numDefault] at h
       try (split at h <;> simp at h))

/-! ## Lemmas about getString and getToneCurve -/

theorem getString_str (raw : JVal) (k : String) (dflt : Option String) (s : String)
    (hget : raw.get k = .jstr s) : getString raw k dflt = some s := by
  have hk : raw.hasKey k = true := raw.hasKey_of_get_ne_undefined k (by rw [hget]; simp)
  unfold getString
  rw [hk, hget]
  cases dflt <;> simp [strDefault]

theorem getString_absent (raw : JVal) (k : String) (dflt : Option String)
    (hk : raw.hasKey k = false) : getString raw k dflt = dflt := by
  have hget : raw.get k = .jundefined := by
    by_contra h
    rw [raw.hasKey_of_get_ne_undefined k h] at hk
    exact Bool.true_eq_false.mp hk
  unfold getString
  rw [hk, hget]
  cases dflt <;> simp [strDefault]

theorem getString_none_dflt (raw : JVal) (k : String) (dflt : Option String)
    (h : getString raw k dflt = none) : dflt = none := by
  cases dflt with
  | none => rfl
  | some d =>
    exfalso
    unfold getString at h
    rcases hg : raw.get k with q | _ | s | b | _ | _ | es | fs <;> rw [hg] at h <;>
      simp [strDefault] at h

theorem getToneCurve_absent (raw : JVal) (k : String) (hk : raw.hasKey k = false) :
    getToneCurve raw k = none := by
  unfold getToneCurve
  rw [hk]
  simp

theorem getToneCurve_arr (raw : JVal) (k : String) (pts : List JVal)
    (hget : raw.get k = .jarr pts) :
    getToneCurve raw k =
      (if (pts.filterMap validCurvePoint).isEmpty then none
       else some (pts.filterMap validCurvePoint)) := by
  have hk : raw.hasKey k = true := raw.hasKey_of_get_ne_undefined k (by rw [hget]; simp)
  unfold getToneCurve
  rw [hk, hget]
  simp

theorem getToneCurve_nonArr (raw : JVal) (k : String) (v : JVal) (hget : raw.get k = v)
    (hv : ∀ es, v ≠ .jarr es) : getToneCurve raw k = none := by
  unfold getToneCurve
  cases hk : raw.hasKey k with
  | false => simp
  | true =>
    rw [hget]
    cases v <;> simp
    exact absurd rfl (hv _)

theorem validCurvePoint_some (x : JVal) (p : ℚ × ℚ) (h : validCurvePoint x = some p) :
    clamp p.1 0 255 = p.1 ∧ clamp p.2 0 255 = p.2 := by
  unfold validCurvePoint at h
  split at h
  case h_1 a b =>
    rw [Option.some.injEq] at h
    subst h
    exact ⟨clamp_idem _ _ _, clamp_idem _ _ _⟩
  case h_2 => exact Option.noConfusion h

theorem getToneCurve_some_spec (raw : JVal) (k : String) (pts : List (ℚ × ℚ))
    (h : getToneCurve raw k = some pts) :
    pts ≠ [] ∧ ∀ p ∈ pts, clamp p.1 0 255 = p.1 ∧ clamp p.2 0 255 = p.2 := by
  cases hk : raw.hasKey k with
  | false =>
    rw [getToneCurve_absent raw k hk] at h
    exact Option.noConfusion h
  | true =>
    rcases hg : raw.get k with q | _ | s | b | _ | _ | es | fs
    case jarr =>
      rw [getToneCurve_arr raw k es hg] at h
      split at h
      · exact Option.noConfusion h
      case isFalse hne =>
        rw [Option.some.injEq] at h
        subst h
        refine ⟨by simpa using hne, ?_⟩
        intro p hp
        obtain ⟨x, _, hx⟩ := List.mem_filterMap.mp hp
        exact validCurvePoint_some x p hx
    all_goals rw [getToneCurve_nonArr raw k _ hg (by intro es2 hC; simp at hC)] at h
    all_goals exact Option.noConfusion h

theorem filterMap_validCurvePoint_encode (pts : List (ℚ × ℚ))
    (hcl : ∀ p ∈ pts, clamp p.1 0 255 = p.1 ∧ clamp p.2 0 255 = p.2) :
    (pts.map (fun p => JVal.jarr [.jnum p.1, .jnum p.2])).filterMap validCurvePoint = pts := by
  induction pts with
  | nil => rfl
  | cons p rest ih =>
    have hp := hcl p (List.mem_cons_self p rest)
    have hrest := ih (fun x hx => hcl x (List.mem_cons_of_mem p hx))
    simp [List.filterMap_cons, validCurvePoint, hp.1, hp.2, hrest]

theorem getToneCurve_roundtrip (raw raw2 : JVal) (k : String) (pts : List (ℚ × ℚ))
    (h : getToneCurve raw k = some pts)
    (hget : raw2.get k = .jarr (pts.map (fun p => .jarr [.jnum p.1, .jnum p.2]))) :
    getToneCurve raw2 k = some pts := by
  obtain ⟨hne, hcl⟩ := getToneCurve_some_spec raw k pts h
  rw [getToneCurve_arr raw2 k _ hget, filterMap_validCurvePoint_encode pts hcl]
  cases pts with
  | nil => exact absurd rfl hne
  | cons a l => simp

/-! ## Lookup in the normalized record -/

theorem findField_presentFields_not_mem {l : List (String × Option SettingVal)} {k : String}
    (h : k ∉ l.map Prod.fst) : findField (presentFields l) k = none := by
  induction l with
  | nil => rfl
  | cons p rest ih =>
    obtain ⟨k1, v?⟩ := p
    simp only [List.map_cons, List.mem_cons] at h
    push_neg at h
    cases v? with
    | none => exact ih h.2
    | some v =>
      show findField ((k1, v) :: presentFields rest) k = none
      rw [findField]
      rw [if_neg (fun he => h.1 he.symm)]
      exact ih h.2

theorem findField_presentFields {l : List (String × Option SettingVal)} {k : String}
    {v? : Option SettingVal} (hnd : (l.map Prod.fst).Nodup) (hmem : (k, v?) ∈ l) :
    findField (presentFields l) k = v? := by
  induction l with
  | nil => exact absurd hmem (List.not_mem_nil _)
  | cons p rest ih =>
    obtain ⟨k1, w?⟩ := p
    simp only [List.map_cons, List.nodup_cons] at hnd
    rcases List.mem_cons.mp hmem with heq | hrest
    · rw [Prod.mk.injEq] at heq
      obtain ⟨h1, h2⟩ := heq
      subst h1
      subst h2
      cases v? with
      | none =>
        show findField (presentFields rest) k = none
        exact findField_presentFields_not_mem hnd.1
      | some v =>
        show findField ((k, v) :: presentFields rest) k = some v
        rw [findField, if_pos rfl]
    · have hkne : k1 ≠ k := by
        intro he
        subst he
        exact hnd.1 (List.mem_map_of_mem Prod.fst hrest)
      cases w? with
      | none => exact ih hnd.2 hrest
      | some w =>
        show findField ((k1, w) :: presentFields rest) k = v?
        rw [findField, if_neg hkne]
        exact ih hnd.2 hrest

theorem fieldSpecs_keys_nodup : (fieldSpecs.map FieldSpec.key).Nodup := by decide

theorem normalize_not_object (raw : JVal) (h : raw.typeofObject = false ∨ raw.isNull = true) :
    validateAndNormalizeAISettings raw = [("processVersion", SettingVal.str "13.3")] := by
  unfold validateAndNormalizeAISettings
  rcases h with h | h <;> rw [h] <;> simp

theorem normalize_object (raw : JVal) (h1 : raw.typeofObject = true) (h2 : raw.isNull = false) :
    validateAndNormalizeAISettings raw =
      presentFields (fieldSpecs.map (fun s => (s.key, evalField raw s))) := by
  unfold validateAndNormalizeAISettings
  rw [h1, h2]
  simp

theorem findField_normalize (raw : JVal) (h1 : raw.typeofObject = true)
    (h2 : raw.isNull = false) (spec : FieldSpec) (hs : spec ∈ fieldSpecs) :
    findField (validateAndNormalizeAISettings raw) spec.key = evalField raw spec := by
  rw [normalize_object raw h1 h2]
  have hnd : ((fieldSpecs.map (fun s => (s.key, evalField raw s))).map Prod.fst).Nodup := by
    rw [List.map_map]
    exact fieldSpecs_keys_nodup
  exact findField_presentFields hnd (List.mem_map_of_mem _ hs)

theorem fieldSpecs_wf : ∀ spec ∈ fieldSpecs, specWF spec := by decide

/-- C1: for every bounded numeric field of the normalizer, declared with range
[mn, mx], and every input object holding a valid number for that field (finite
and integral when the field is integer-only), the normalized record holds
exactly clamp(v, mn, mx), which lies in [mn, mx] — out-of-range values are
clamped, never rejected. -/
theorem C1_bounded_numeric_fields_clamp (key : String) (mn mx : ℚ) (dflt : Option ℚ)
    (af : Bool) (hspec : FieldSpec.numF key mn mx dflt af ∈ fieldSpecs)
    (fs : List (String × JVal)) (q : ℚ)
    (hget : (JVal.jobj fs).get key = .jnum q)
    (hint : af = false → q.isInt = true) :
    findField (validateAndNormalizeAISettings (JVal.jobj fs)) key
      = some (SettingVal.num (clamp q mn mx))
    ∧ mn ≤ clamp q mn mx ∧ clamp q mn mx ≤ mx := by
  have hwf := fieldSpecs_wf _ hspec
  have hlook := findField_normalize (JVal.jobj fs) rfl rfl _ hspec
  rw [FieldSpec.key] at hlook
  rw [evalField] at hlook
  rw [getNumber_num _ _ _ _ _ _ _ hget hint] at hlook
  exact ⟨hlook, clamp_mem_Icc q mn mx hwf.1⟩

/-- Witness for C1: exposure 7 on input clamps to the range maximum 5. -/
theorem C1_witness :
    findField (validateAndNormalizeAISettings (JVal.jobj [("exposure", JVal.jnum 7)])) "exposure"
      = some (SettingVal.num 5) := by
  have h := C1_bounded_numeric_fields_clamp "exposure" (-5) 5 (some 0) true
    (by decide) [("exposure", JVal.jnum 7)] 7 rfl (fun hc => Bool.noConfusion hc)
  have hc : clamp 7 (-5) 5 = 5 := by decide
  rw [hc] at h
  exact h.1

/-- C2: for every numeric field, a non-numeric input value (string, boolean,
object, array, null, NaN), or a fractional number on an integer-only field,
produces the field's default clamped to its range when a default exists and an
absent field otherwise — exactly the result obtained when the field is absent
from the input; fractional values are never truncated. -/
theorem C2_invalid_numeric_inputs_default (key : String) (mn mx : ℚ) (dflt : Option ℚ)
    (af : Bool) (hspec : FieldSpec.numF key mn mx dflt af ∈ fieldSpecs)
    (fs : List (String × JVal)) :
    ((JVal.jobj fs).hasKey key = false →
      findField (validateAndNormalizeAISettings (JVal.jobj fs)) key
        = dflt.map (fun d => SettingVal.num (clamp d mn mx)))
    ∧ (∀ v, (JVal.jobj fs).get key = v →
        (nonNumeric v = true ∨ (af = false ∧ ∃ q, v = JVal.jnum q ∧ q.isInt = false)) →
        findField (validateAndNormalizeAISettings (JVal.jobj fs)) key
          = dflt.map (fun d => SettingVal.num (clamp d mn mx))) := by
  have hlook := findField_normalize (JVal.jobj fs) rfl rfl _ hspec
  rw [FieldSpec.key] at hlook
  rw [evalField] at hlook
  constructor
  · intro hk
    rw [getNumber_absent _ _ _ _ _ _ hk] at hlook
    rw [hlook, Option.map_map]
    rfl
  · intro v hget hv
    rcases hv with hnn | ⟨haf, q, hq, hqint⟩
    · rw [getNumber_nonNumeric _ _ _ _ _ _ _ hget hnn] at hlook
      rw [hlook, Option.map_map]
      rfl
    · subst haf
      subst hq
      rw [getNumber_fractional _ _ _ _ _ _ hget hqint] at hlook
      rw [hlook, Option.map_map]
      rfl

/-- Witness for C2: a string contrast falls back to the clamped default 0, and
a fractional tint (integer-only) falls back to its default 0. -/
theorem C2_witness :
    findField (validateAndNormalizeAISettings
        (JVal.jobj [("contrast", JVal.jstr "high")])) "contrast"
      = some (SettingVal.num 0)
    ∧ findField (validateAndNormalizeAISettings
        (JVal.jobj [("tint", JVal.jnum (mkRat 1 2))])) "tint"
      = some (SettingVal.num 0) := by
  constructor
  · have h := (C2_invalid_numeric_inputs_default "contrast" (-100) 100 (some 0) true
      (by decide) [("contrast", JVal.jstr "high")]).2 (JVal.jstr "high") rfl (Or.inl rfl)
    rw [h]
    decide
  · have h := (C2_invalid_numeric_inputs_default "tint" (-150) 150 (some 0) false
      (by decide) [("tint", JVal.jnum (mkRat 1 2))]).2 (JVal.jnum (mkRat 1 2)) rfl
      (Or.inr ⟨rfl, mkRat 1 2, rfl, by decide⟩)
    rw [h]
    decide

/-- C3: for every curve field (toneCurve, toneCurveRed, toneCurveGreen,
toneCurveBlue), an absent or non-array input yields an absent field; an array
input retains exactly the points that are 2-element arrays of two non-NaN
numbers, in order, each coordinate clamped to [0, 255], the whole curve being
absent when no point survives; in particular
[[0,0],["x",1],[300,-10],[128,128]] normalizes to [[0,0],[255,0],[128,128]]. -/
theorem C3_curve_fields (key : String) (hspec : FieldSpec.curveF key ∈ fieldSpecs)
    (fs : List (String × JVal)) :
    ((JVal.jobj fs).hasKey key = false →
      findField (validateAndNormalizeAISettings (JVal.jobj fs)) key = none)
    ∧ (∀ v, (JVal.jobj fs).get key = v → (∀ es, v ≠ JVal.jarr es) →
      findField (validateAndNormalizeAISettings (JVal.jobj fs)) key = none)
    ∧ (∀ pts, (JVal.jobj fs).get key = JVal.jarr pts →
      findField (validateAndNormalizeAISettings (JVal.jobj fs)) key =
        (if (pts.filterMap validCurvePoint).isEmpty then none
         else some (SettingVal.curve (pts.filterMap validCurvePoint))))
    ∧ findField (validateAndNormalizeAISettings (JVal.jobj [("toneCurve",
        JVal.jarr [JVal.jarr [JVal.jnum 0, JVal.jnum 0],
                   JVal.jarr [JVal.jstr "x", JVal.jnum 1],
                   JVal.jarr [JVal.jnum 300, JVal.jnum (-10)],
                   JVal.jarr [JVal.jnum 128, JVal.jnum 128]])])) "toneCurve"
      = some (SettingVal.curve [(0, 0), (255, 0), (128, 128)]) := by
  have hlook := findField_normalize (JVal.jobj fs) rfl rfl _ hspec
  rw [FieldSpec.key] at hlook
  rw [evalField] at hlook
  refine ⟨?_, ?_, ?_, by decide⟩
  · intro hk
    rw [getToneCurve_absent _ _ hk] at hlook
    rw [hlook]
    rfl
  · intro v hget hv
    rw [getToneCurve_nonArr _ _ _ hget hv] at hlook
    rw [hlook]
    rfl
  · intro pts hget
    rw [getToneCurve_arr _ _ _ hget] at hlook
    rw [hlook]
    split <;> rfl

/-- Witness for C3: a non-array toneCurveRed is dropped. -/
theorem C3_witness :
    findField (validateAndNormalizeAISettings
      (JVal.jobj [("toneCurveRed", JVal.jstr "steep")])) "toneCurveRed" = none := by
  exact (C3_curve_fields "toneCurveRed" (by decide)
    [("toneCurveRed", JVal.jstr "steep")]).2.1 (JVal.jstr "steep") rfl
    (fun es hC => by simp at hC)

/-- C4: the normalized processVersion always belongs to the known-version set;
a string input is passed through when it is in the set and replaced by the
default "13.3" otherwise. -/
theorem C4_process_version_gate :
    (∀ raw, ∃ s, findField (validateAndNormalizeAISettings raw) "processVersion"
        = some (SettingVal.str s) ∧ s ∈ knownProcessVersions)
    ∧ (∀ fs s, (JVal.jobj fs).get "processVersion" = JVal.jstr s →
        findField (validateAndNormalizeAISettings (JVal.jobj fs)) "processVersion"
          = some (SettingVal.str (if knownProcessVersions.contains s then s else "13.3"))) := by
  have hmem : FieldSpec.pvF "processVersion" "13.3" ∈ fieldSpecs := by decide
  constructor
  · intro raw
    by_cases hobj : raw.typeofObject = true ∧ raw.isNull = false
    · have hlook := findField_normalize raw hobj.1 hobj.2 _ hmem
      rw [FieldSpec.key] at hlook
      rw [evalField] at hlook
      rcases hgs : getString raw "processVersion" (some "13.3") with _ | s
      · rw [hgs] at hlook
        exact ⟨"13.3", hlook, by decide⟩
      · rw [hgs] at hlook
        refine ⟨if knownProcessVersions.contains s then s else "13.3", hlook, ?_⟩
        by_cases hc : knownProcessVersions.contains s = true
        · rw [if_pos hc]
          exact List.elem_iff.mp hc
        · rw [if_neg hc]
          decide
    · have hbail : raw.typeofObject = false ∨ raw.isNull = true := by
        rcases h1 : raw.typeofObject <;> rcases h2 : raw.isNull <;>
          simp_all
      rw [normalize_not_object raw hbail]
      exact ⟨"13.3", rfl, by decide⟩
  · intro fs s hget
    have hlook := findField_normalize (JVal.jobj fs) rfl rfl _ hmem
    rw [FieldSpec.key] at hlook
    rw [evalField] at hlook
    rw [getString_str _ _ _ _ hget] at hlook
    exact hlook

/-- Witness for C4: the unknown version "7.0" is replaced by "13.3", while
"13.3" passes through. -/
theorem C4_witness :
    findField (validateAndNormalizeAISettings
      (JVal.jobj [("processVersion", JVal.jstr "7.0")])) "processVersion"
      = some (SettingVal.str "13.3")
    ∧ findField (validateAndNormalizeAISettings
      (JVal.jobj [("processVersion", JVal.jstr "13.3")])) "processVersion"
      = some (SettingVal.str "13.3") := by
  constructor
  · have h := C4_process_version_gate.2 [("processVersion", JVal.jstr "7.0")] "7.0" rfl
    rw [h]
    decide
  · have h := C4_process_version_gate.2 [("processVersion", JVal.jstr "13.3")] "13.3" rfl
    rw [h]
    decide

theorem getNumber_congr (raw raw2 : JVal) (k : String) (mn mx dflt : Option ℚ) (af : Bool)
    (hh : raw.hasKey k = raw2.hasKey k) (hg : raw.get k = raw2.get k) :
    getNumber raw k mn mx dflt af = getNumber raw2 k mn mx dflt af := by
  unfold getNumber
  rw [hh, hg]

theorem getString_congr (raw raw2 : JVal) (k : String) (dflt : Option String)
    (hh : raw.hasKey k = raw2.hasKey k) (hg : raw.get k = raw2.get k) :
    getString raw k dflt = getString raw2 k dflt := by
  unfold getString
  rw [hh, hg]

theorem getToneCurve_congr (raw raw2 : JVal) (k : String)
    (hh : raw.hasKey k = raw2.hasKey k) (hg : raw.get k = raw2.get k) :
    getToneCurve raw k = getToneCurve raw2 k := by
  unfold getToneCurve
  rw [hh, hg]

theorem evalField_congr (raw raw2 : JVal) (spec : FieldSpec)
    (hh : raw.hasKey spec.key = raw2.hasKey spec.key)
    (hg : raw.get spec.key = raw2.get spec.key) :
    evalField raw spec = evalField raw2 spec := by
  cases spec with
  | numF k mn mx dflt af =>
    rw [evalField, evalField, getNumber_congr raw raw2 k _ _ dflt af hh hg]
  | strF k dflt =>
    rw [evalField, evalField, getString_congr raw raw2 k dflt hh hg]
  | curveF k =>
    rw [evalField, evalField, getToneCurve_congr raw raw2 k hh hg]
  | pvF k dflt =>
    rw [evalField, evalField, getString_congr raw raw2 k (some dflt) hh hg]

/-- C6: the normalizer is total and two-tier.  A structurally nonsensical
top-level input (typeof not object, or null) yields exactly the minimal record
with the default process-version and no field is processed; and each field's
outcome depends only on that field's own key in the input, so one field's
anomaly cannot disturb any other field. -/
theorem C6_error_handling :
    (∀ raw, raw.typeofObject = false ∨ raw.isNull = true →
      validateAndNormalizeAISettings raw = [("processVersion", SettingVal.str "13.3")])
    ∧ (∀ raw raw2 spec, spec ∈ fieldSpecs →
      raw.hasKey spec.key = raw2.hasKey spec.key →
      raw.get spec.key = raw2.get spec.key →
      evalField raw spec = evalField raw2 spec) :=
  ⟨normalize_not_object, fun raw raw2 spec _ hh hg => evalField_congr raw raw2 spec hh hg⟩

/-- Witness for C6: a top-level string yields the minimal record, and the
exposure field computes identically in two objects that agree on exposure but
disagree wildly elsewhere. -/
theorem C6_witness :
    validateAndNormalizeAISettings (JVal.jstr "garbage")
      = [("processVersion", SettingVal.str "13.3")]
    ∧ evalField (JVal.jobj [("exposure", JVal.jnum 3), ("contrast", JVal.jstr "x")])
        (FieldSpec.numF "exposure" (-5) 5 (some 0) true)
      = evalField (JVal.jobj [("exposure", JVal.jnum 3)])
        (FieldSpec.numF "exposure" (-5) 5 (some 0) true) :=
  ⟨C6_error_handling.1 (JVal.jstr "garbage") (Or.inl rfl),
   C6_error_handling.2 _ _ (FieldSpec.numF "exposure" (-5) 5 (some 0) true)
     (by decide) rfl rfl⟩

/-- C9: normalizing the empty object produces every field that has a
documented default, present at that default, and only the curve and
split-toning fields (which have no default) are absent; an input that
explicitly supplies a default value is indistinguishable from one that omits
the field. -/
theorem C9_empty_object_defaults :
    validateAndNormalizeAISettings (JVal.jobj []) = defaultSettingsRecord
    ∧ validateAndNormalizeAISettings (JVal.jobj [("exposure", JVal.jnum 0)])
      = validateAndNormalizeAISettings (JVal.jobj []) := by
  constructor <;> decide

theorem getNumber_some_cases (raw : JVal) (k : String) (mn mx : ℚ) (dflt : Option ℚ)
    (af : Bool) (q : ℚ)
    (h : getNumber raw k (some mn) (some mx) dflt af = some q) :
    clamp q mn mx = q ∧
    ((∃ q', raw.get k = JVal.jnum q' ∧ (af = true ∨ q'.isInt = true) ∧ q = clamp q' mn mx)
     ∨ (∃ d, dflt = some d ∧ q = clamp d mn mx)) := by
  unfold getNumber at h
  split at h
  · exact Option.noConfusion h
  rcases hg : raw.get k with q0 | _ | s | b | _ | _ | es | fs <;> rw [hg] at h
  case jnum =>
    simp only [numDefault] at h
    split at h
    case isTrue haf =>
      rcases Option.map_eq_some'.mp h with ⟨d, hd, hdq⟩
      have hq : q = clamp d mn mx := hdq.symm
      exact ⟨hq ▸ clamp_idem d mn mx, Or.inr ⟨d, hd, hq⟩⟩
    case isFalse haf =>
      rw [Option.some.injEq] at h
      have hcond : af = true ∨ q0.isInt = true := by
        cases af with
        | true => exact Or.inl rfl
        | false =>
          cases hqi : q0.isInt with
          | true => exact Or.inr rfl
          | false => rw [hqi] at haf; exact absurd rfl haf
      exact ⟨h ▸ clamp_idem q0 mn mx, Or.inl ⟨q0, rfl, hcond, h.symm⟩⟩
  case jundefined =>
    cases dflt with
    | none => simp [numDefault] at h
    | some d =>
      simp only [numDefault] at h
      split at h
      case isTrue haf =>
        rw [Option.map_some', Option.some.injEq] at h
        have hq : q = clamp d mn mx := h.symm
        exact ⟨hq ▸ clamp_idem d mn mx, Or.inr ⟨d, rfl, hq⟩⟩
      case isFalse haf =>
        rw [Option.some.injEq] at h
        have hq : q = clamp d mn mx := h.symm
        exact ⟨hq ▸ clamp_idem d mn mx, Or.inr ⟨d, rfl, hq⟩⟩
  all_goals
    simp only [numDefault] at h
  all_goals
    rcases Option.map_eq_some'.mp h with ⟨d, hd, hdq⟩
  all_goals
    exact ⟨hdq ▸ clamp_idem d mn mx, Or.inr ⟨d, hd, hdq.symm⟩⟩

theorem getNumber_roundtrip (raw raw2 : JVal) (k : String) (mn mx : ℚ) (dflt : Option ℚ)
    (af : Bool) (q : ℚ)
    (hwf : af = false → mn.isInt = true ∧ mx.isInt = true)
    (h : getNumber raw k (some mn) (some mx) dflt af = some q)
    (hget : raw2.get k = JVal.jnum q) :
    getNumber raw2 k (some mn) (some mx) dflt af = some q := by
  obtain ⟨hfix, hcases⟩ := getNumber_some_cases raw k mn mx dflt af q h
  by_cases hqi : af = true ∨ q.isInt = true
  · rw [getNumber_num raw2 k mn mx dflt af q hget ?_, hfix]
    intro haf
    rcases hqi with h1 | h1
    · rw [haf] at h1
      exact Bool.noConfusion h1
    · exact h1
  · push_neg at hqi
    have haf : af = false := by
      cases af with
      | false => rfl
      | true => exact absurd rfl hqi.1
    have hqf : q.isInt = false := by
      cases hq2 : q.isInt with
      | false => rfl
      | true => exact absurd hq2 hqi.2
    subst haf
    rcases hcases with ⟨q', hg', hcond, hq⟩ | ⟨d, hd, hq⟩
    · rcases hcond with h1 | h1
      · exact Bool.noConfusion h1
      · have hqint : q.isInt = true := by
          rw [hq]
          exact clamp_isInt q' mn mx h1 (hwf rfl).1 (hwf rfl).2
        rw [hqf] at hqint
        exact Bool.noConfusion hqint
    · rw [getNumber_fractional raw2 k mn mx dflt q hget hqf, hd]
      rw [Option.map_some', ← hq]

theorem recordToJVal_find (R : List (String × SettingVal)) (k : String) :
    (recordToJVal R).get k =
      (match findField R k with
       | some v => settingValToJVal v
       | none => JVal.jundefined)
    ∧ (recordToJVal R).hasKey k = (findField R k).isSome := by
  induction R with
  | nil => exact ⟨rfl, rfl⟩
  | cons p rest ih =>
    obtain ⟨k1, w⟩ := p
    by_cases he : k1 = k
    · subst he
      constructor <;>
        simp [recordToJVal, JVal.get, JVal.hasKey, List.find?_cons, findField]
    · have hne : (k1 == k) = false := by simp [he]
      obtain ⟨ih1, ih2⟩ := ih
      constructor
      · simpa [recordToJVal, JVal.get, JVal.hasKey, List.find?_cons, hne, findField, he]
          using ih1
      · simpa [recordToJVal, JVal.get, JVal.hasKey, List.find?_cons, hne, findField, he]
          using ih2

theorem evalField_pv_mem (raw : JVal) (k dflt : String) (v : SettingVal)
    (hwf : dflt ∈ knownProcessVersions)
    (h : evalField raw (FieldSpec.pvF k dflt) = some v) :
    ∃ s, v = SettingVal.str s ∧ s ∈ knownProcessVersions := by
  rw [evalField] at h
  rcases hgs : getString raw k (some dflt) with _ | s0 <;> rw [hgs] at h <;>
    rw [Option.some.injEq] at h
  · exact ⟨dflt, h.symm, hwf⟩
  · refine ⟨if knownProcessVersions.contains s0 then s0 else dflt, h.symm, ?_⟩
    by_cases hc : knownProcessVersions.contains s0 = true
    · rw [if_pos hc]
      exact List.elem_iff.mp hc
    · rw [if_neg hc]
      exact hwf

theorem evalField_roundtrip (spec : FieldSpec) (hwf : specWF spec) (raw : JVal)
    (R : List (String × SettingVal)) (hR : findField R spec.key = evalField raw spec) :
    evalField (recordToJVal R) spec = evalField raw spec := by
  obtain ⟨hget, hhas⟩ := recordToJVal_find R spec.key
  cases spec with
  | numF k mn mx dflt af =>
    rw [FieldSpec.key] at hR hget hhas
    rcases hgn : getNumber raw k (some mn) (some mx) dflt af with _ | q
    · have hd : dflt = none := getNumber_none_dflt _ _ _ _ _ _ hgn
      have hRn : findField R k = none := by rw [hR, evalField, hgn]; rfl
      have hk2 : (recordToJVal R).hasKey k = false := by rw [hhas, hRn]; rfl
      have hL : evalField (recordToJVal R) (FieldSpec.numF k mn mx dflt af) = none := by
        rw [evalField, getNumber_absent _ _ _ _ _ _ hk2, hd]
        rfl
      have hRr : evalField raw (FieldSpec.numF k mn mx dflt af) = none := by
        rw [evalField, hgn]
        rfl
      rw [hL, hRr]
    · have hRs : findField R k = some (SettingVal.num q) := by rw [hR, evalField, hgn]; rfl
      have hget2 : (recordToJVal R).get k = JVal.jnum q := by
        rw [hget, hRs]
        rfl
      rw [evalField, getNumber_roundtrip raw (recordToJVal R) k mn mx dflt af q hwf.2 hgn hget2,
        evalField, hgn]
  | strF k dflt =>
    rw [FieldSpec.key] at hR hget hhas
    rcases hgs : getString raw k dflt with _ | s
    · have hd : dflt = none := getString_none_dflt _ _ _ hgs
      have hRn : findField R k = none := by rw [hR, evalField, hgs]; rfl
      have hk2 : (recordToJVal R).hasKey k = false := by rw [hhas, hRn]; rfl
      have hL : evalField (recordToJVal R) (FieldSpec.strF k dflt) = none := by
        rw [evalField, getString_absent _ _ _ hk2, hd]
        rfl
      have hRr : evalField raw (FieldSpec.strF k dflt) = none := by
        rw [evalField, hgs]
        rfl
      rw [hL, hRr]
    · have hRs : findField R k = some (SettingVal.str s) := by rw [hR, evalField, hgs]; rfl
      have hget2 : (recordToJVal R).get k = JVal.jstr s := by rw [hget, hRs]; rfl
      rw [evalField, getString_str _ _ _ _ hget2, evalField, hgs]
  | curveF k =>
    rw [FieldSpec.key] at hR hget hhas
    rcases hgc : getToneCurve raw k with _ | pts
    · have hRn : findField R k = none := by rw [hR, evalField, hgc]; rfl
      have hk2 : (recordToJVal R).hasKey k = false := by rw [hhas, hRn]; rfl
      rw [evalField, getToneCurve_absent _ _ hk2, evalField, hgc]
    · have hRs : findField R k = some (SettingVal.curve pts) := by rw [hR, evalField, hgc]; rfl
      have hget2 : (recordToJVal R).get k
          = JVal.jarr (pts.map (fun p => JVal.jarr [JVal.jnum p.1, JVal.jnum p.2])) := by
        rw [hget, hRs]
        rfl
      rw [evalField, getToneCurve_roundtrip raw (recordToJVal R) k pts hgc hget2, evalField, hgc]
  | pvF k dflt =>
    rw [FieldSpec.key] at hR hget hhas
    rcases hv : evalField raw (FieldSpec.pvF k dflt) with _ | v
    · rw [evalField] at hv
      rcases hgs : getString raw k (some dflt) with _ | s0 <;> rw [hgs] at hv <;>
        exact Option.noConfusion hv
    · obtain ⟨s, hvs, hmem⟩ := evalField_pv_mem raw k dflt v hwf hv
      subst hvs
      have hRs : findField R k = some (SettingVal.str s) := by rw [hR, hv]
      have hget2 : (recordToJVal R).get k = JVal.jstr s := by rw [hget, hRs]; rfl
      rw [evalField, getString_str _ _ _ _ hget2]
      have hc : knownProcessVersions.contains s = true := List.elem_iff.mpr hmem
      simp [hc]
      intro hn
      exact absurd hmem hn

/-- C5 (amended): the normalizer is idempotent on every input that passes the
top-level object check — the record produced from an object (or array) input
is a fixed point of normalization.  (The minimal fallback record produced for
a non-object input is not a fixed point; see the counterexample.) -/
theorem C5_idempotent_on_objects (raw : JVal) (h1 : raw.typeofObject = true)
    (h2 : raw.isNull = false) :
    validateAndNormalizeAISettings (recordToJVal (validateAndNormalizeAISettings raw))
      = validateAndNormalizeAISettings raw := by
  have hO : (recordToJVal (validateAndNormalizeAISettings raw)).typeofObject = true := rfl
  have hN : (recordToJVal (validateAndNormalizeAISettings raw)).isNull = false := rfl
  rw [normalize_object _ hO hN, normalize_object raw h1 h2]
  refine congrArg presentFields (List.map_congr_left ?_)
  intro spec hs
  have hR := findField_normalize raw h1 h2 spec hs
  rw [normalize_object raw h1 h2] at hR
  rw [evalField_roundtrip spec (fieldSpecs_wf spec hs) raw _ hR]

/-- Counterexample to C5 as stated: the record the normalizer produces for the
null input (the minimal fallback record) is not a fixed point — renormalizing
it fills in every default. -/
theorem C5_counterexample :
    validateAndNormalizeAISettings (recordToJVal (validateAndNormalizeAISettings JVal.jnull))
      ≠ validateAndNormalizeAISettings JVal.jnull := by decide

/-- Witness for C5 (amended): a concrete object input whose normalization is a
fixed point. -/
theorem C5_witness :
    validateAndNormalizeAISettings (recordToJVal (validateAndNormalizeAISettings
      (JVal.jobj [("exposure", JVal.jnum 9)])))
      = validateAndNormalizeAISettings (JVal.jobj [("exposure", JVal.jnum 9)]) :=
  C5_idempotent_on_objects (JVal.jobj [("exposure", JVal.jnum 9)]) rfl rfl

/-! ## Serializer lemmas -/

theorem findField_some_mem {α : Type} {l : List (String × α)} {k : String} {v : α}
    (h : findField l k = some v) : (k, v) ∈ l := by
  induction l with
  | nil => exact Option.noConfusion h
  | cons p rest ih =>
    obtain ⟨k1, w⟩ := p
    rw [findField] at h
    split at h
    case isTrue he =>
      rw [Option.some.injEq] at h
      subst he
      subst h
      exact List.mem_cons_self _ _
    case isFalse he => exact List.mem_cons_of_mem _ (ih h)

theorem findField_ne_none_of_mem {α : Type} {l : List (String × α)} {k : String} {v : α}
    (h : (k, v) ∈ l) : findField l k ≠ none := by
  induction l with
  | nil => exact absurd h (List.not_mem_nil _)
  | cons p rest ih =>
    obtain ⟨k1, w⟩ := p
    rw [findField]
    split
    · exact fun hc => Option.noConfusion hc
    case isFalse he =>
      rcases List.mem_cons.mp h with heq | hrest
      · rw [Prod.mk.injEq] at heq
        exact absurd heq.1.symm he
      · exact ih hrest

theorem loopGo_tag_mem (l : List (String × SettingVal)) (seen : List String) (n : XNode)
    (hn : n ∈ loopGo l seen) : n.tag ∈ tagMapList.map Prod.snd := by
  induction l generalizing seen with
  | nil => exact absurd hn (List.not_mem_nil _)
  | cons p rest ih =>
    obtain ⟨k, v⟩ := p
    rw [loopGo] at hn
    rcases ht : tagMap k with _ | tag <;> simp only [ht] at hn
    · exact ih seen hn
    · by_cases hseen : seen.contains tag = true
      · rw [if_pos hseen] at hn
        exact ih seen hn
      · rw [if_neg hseen] at hn
        rcases List.mem_cons.mp hn with he | hrest
        · have htag : n.tag = tag := by
            rw [he]
            cases v with
            | curve pts =>
              show (if (strStartsWith k "toneCurve" && !(k == "toneCurvePV")) = true
                then XNode.curveSeq tag pts else XNode.scalar tag _).tag = tag
              split
              · rfl
              · rfl
            | num q => rfl
            | str s => rfl
          rw [htag]
          exact List.mem_map_of_mem Prod.snd (findField_some_mem ht)
        · exact ih (tag :: seen) hrest

theorem loopGo_filter_tag (l : List (String × SettingVal)) (seen : List String) (t : String)
    (ht : t ∉ tagMapList.map Prod.snd) :
    (loopGo l seen).filter (fun n => n.tag == t) = [] := by
  rw [List.filter_eq_nil_iff]
  intro n hn
  have := loopGo_tag_mem l seen n hn
  intro hc
  exact ht (eq_of_beq hc ▸ this)

theorem serialize_pv_elements (settings : List (String × SettingVal)) (name : String) :
    (convertSettingsToXMP settings name).filter (fun n => n.tag == "ProcessVersion")
      = [XNode.scalar "ProcessVersion" (processVersionValue settings)] := by
  unfold convertSettingsToXMP
  rw [List.filter_append, List.filter_append, List.filter_append]
  rw [loopGo_filter_tag settings [] "ProcessVersion" (by decide)]
  have h2 : ([XNode.scalar "PresetType" (SettingVal.str "Normal"),
      XNode.scalar "PresetName" (SettingVal.str name),
      XNode.scalar "ProcessVersion" (processVersionValue settings)]).filter
        (fun n => n.tag == "ProcessVersion")
      = [XNode.scalar "ProcessVersion" (processVersionValue settings)] := by
    simp [List.filter, XNode.tag]
  rw [h2]
  have h3 : ((if hasToneCurveFlag settings
        then [XNode.scalar "HasToneCurve" (SettingVal.str "True")] else []).filter
        (fun n => n.tag == "ProcessVersion")) = [] := by
    split <;> simp [List.filter, XNode.tag]
  have h4 : ((if hasHSLFlag settings
        then [XNode.scalar "HasSettings" (SettingVal.str "True")] else []).filter
        (fun n => n.tag == "ProcessVersion")) = [] := by
    split <;> simp [List.filter, XNode.tag]
  rw [h3, h4]
  simp

theorem serialize_hasToneCurve_mem (settings : List (String × SettingVal)) (name : String) :
    (XNode.scalar "HasToneCurve" (SettingVal.str "True")) ∈ convertSettingsToXMP settings name
      ↔ hasToneCurveFlag settings = true := by
  unfold convertSettingsToXMP
  constructor
  · intro h
    rcases List.mem_append.mp h with h | h
    · rcases List.mem_append.mp h with h | h
      · rcases List.mem_append.mp h with h | h
        · have := loopGo_tag_mem settings [] _ h
          rw [show (XNode.scalar "HasToneCurve" (SettingVal.str "True")).tag
            = "HasToneCurve" from rfl] at this
          exact absurd this (by decide)
        · simp at h
      · split at h
        case isTrue hf => exact hf
        case isFalse hf => exact absurd h (List.not_mem_nil _)
    · split at h
      · simp at h
      · exact absurd h (List.not_mem_nil _)
  · intro h
    rw [h]
    refine List.mem_append.mpr (Or.inl (List.mem_append.mpr (Or.inr ?_)))
    simp

theorem serialize_hasSettings_mem (settings : List (String × SettingVal)) (name : String) :
    (XNode.scalar "HasSettings" (SettingVal.str "True")) ∈ convertSettingsToXMP settings name
      ↔ hasHSLFlag settings = true := by
  unfold convertSettingsToXMP
  constructor
  · intro h
    rcases List.mem_append.mp h with h | h
    · rcases List.mem_append.mp h with h | h
      · rcases List.mem_append.mp h with h | h
        · have := loopGo_tag_mem settings [] _ h
          rw [show (XNode.scalar "HasSettings" (SettingVal.str "True")).tag
            = "HasSettings" from rfl] at this
          exact absurd this (by decide)
        · simp at h
      · split at h
        · simp at h
        · exact absurd h (List.not_mem_nil _)
    · split at h
      case isTrue hf => exact hf
      case isFalse hf => exact absurd h (List.not_mem_nil _)
  · intro h
    rw [h]
    exact List.mem_append.mpr (Or.inr (by simp))

theorem hasHSLFlag_iff (settings : List (String × SettingVal)) (hwf : keysWF settings) :
    hasHSLFlag settings = true ↔ ∃ k ∈ hslKeys, findField settings k ≠ none := by
  constructor
  · intro h
    obtain ⟨p, hp, hps⟩ := List.any_eq_true.mp h
    have hk : p.1 ∈ settingsKeys := hwf.2 p hp
    have h1 : ∀ k ∈ settingsKeys, strStartsWith k "hsl" = true → k ∈ hslKeys := by decide
    refine ⟨p.1, h1 p.1 hk hps, findField_ne_none_of_mem (v := p.2) ?_⟩
    exact hp
  · intro ⟨k, hk, hne⟩
    rcases hf : findField settings k with _ | v
    · exact absurd hf hne
    · have hmem := findField_some_mem hf
      have h2 : ∀ k ∈ hslKeys, strStartsWith k "hsl" = true := by decide
      exact List.any_eq_true.mpr ⟨(k, v), hmem, h2 k hk⟩

theorem knownPV_nonempty : ∀ x ∈ knownProcessVersions, (x == "") = false := by decide

theorem normalize_pv_known (raw : JVal) :
    ∃ s, s ∈ knownProcessVersions
      ∧ findField (validateAndNormalizeAISettings raw) "processVersion"
        = some (SettingVal.str s) := by
  by_cases hobj : raw.typeofObject = true ∧ raw.isNull = false
  · have hmem : FieldSpec.pvF "processVersion" "13.3" ∈ fieldSpecs := by decide
    have hlook := findField_normalize raw hobj.1 hobj.2 _ hmem
    rw [FieldSpec.key] at hlook
    rcases hv : evalField raw (FieldSpec.pvF "processVersion" "13.3") with _ | v
    · rw [evalField] at hv
      rcases hgs : getString raw "processVersion" (some "13.3") with _ | s0 <;>
        rw [hgs] at hv <;> exact Option.noConfusion hv
    · obtain ⟨s, hvs, hmem2⟩ := evalField_pv_mem raw _ _ v (by decide) hv
      refine ⟨s, hmem2, ?_⟩
      rw [hlook, hv, hvs]
  · have hbail : raw.typeofObject = false ∨ raw.isNull = true := by
      rcases h1 : raw.typeofObject <;> rcases h2 : raw.isNull <;> simp_all
    rw [normalize_not_object raw hbail]
    exact ⟨"13.3", by decide, rfl⟩

/-- C7: for every Settings Record (whose process-version, if present, obeys
the data-model invariant of belonging to the known-version set) and every
preset name, the serialized ProcessVersion element carries the legacy default
"6.7" when the record has no processVersion — not the normalizer's modern
default "13.3" — and carries the record's own value verbatim when present. -/
theorem C7_legacy_pv_default (settings : List (String × SettingVal)) (name : String)
    (hwf : pvWF settings) :
    (findField settings "processVersion" = none →
      (convertSettingsToXMP settings name).filter (fun n => n.tag == "ProcessVersion")
        = [XNode.scalar "ProcessVersion" (SettingVal.str "6.7")])
    ∧ (∀ s, findField settings "processVersion" = some (SettingVal.str s) →
      (convertSettingsToXMP settings name).filter (fun n => n.tag == "ProcessVersion")
        = [XNode.scalar "ProcessVersion" (SettingVal.str s)]) := by
  constructor
  · intro hnone
    rw [serialize_pv_elements]
    unfold processVersionValue
    rw [hnone]
  · intro s hsome
    obtain ⟨s2, hs2, hmem⟩ := hwf _ hsome
    rw [SettingVal.str.injEq] at hs2
    subst hs2
    rw [serialize_pv_elements]
    unfold processVersionValue
    rw [hsome]
    have hne : (s == "") = false := knownPV_nonempty s hmem
    simp [truthy, hne]

/-- Witness for C7: the empty record serializes with the legacy ProcessVersion
"6.7". -/
theorem C7_witness :
    (convertSettingsToXMP [] "My Preset").filter (fun n => n.tag == "ProcessVersion")
      = [XNode.scalar "ProcessVersion" (SettingVal.str "6.7")] :=
  (C7_legacy_pv_default [] "My Preset" (fun _ h => Option.noConfusion h)).1 rfl

/-- Counterexample to C8 as stated: a record carrying only the curve-version
tag toneCurvePV — no curve of coordinate pairs at all — still gets the
HasToneCurve marker, because the code's condition also tests toneCurvePV. -/
theorem C8_counterexample :
    (XNode.scalar "HasToneCurve" (SettingVal.str "True"))
      ∈ convertSettingsToXMP [("toneCurvePV", SettingVal.str "2012")] "AI Generated Preset"
    ∧ (∀ k pts, findField [("toneCurvePV", SettingVal.str "2012")] k
        ≠ some (SettingVal.curve pts)) := by
  constructor
  · decide
  · intro k pts h
    rw [findField] at h
    split at h
    · rw [Option.some.injEq] at h
      exact SettingVal.noConfusion h
    · exact Option.noConfusion h

/-- C8 (amended): for a record with distinct, known settings keys, the
HasToneCurve marker is appended iff one of the four curve fields or the
curve-version tag toneCurvePV is present with a truthy value (the code also
counts toneCurvePV, contrary to the claim), and the HasSettings marker is
appended iff at least one per-bucket HSL field is present. -/
theorem C8_summary_markers (settings : List (String × SettingVal)) (name : String)
    (hwf : keysWF settings) :
    ((XNode.scalar "HasToneCurve" (SettingVal.str "True")) ∈ convertSettingsToXMP settings name
      ↔ (truthyOpt (findField settings "toneCurvePV") = true
        ∨ truthyOpt (findField settings "toneCurve") = true
        ∨ truthyOpt (findField settings "toneCurveRed") = true
        ∨ truthyOpt (findField settings "toneCurveGreen") = true
        ∨ truthyOpt (findField settings "toneCurveBlue") = true))
    ∧ ((XNode.scalar "HasSettings" (SettingVal.str "True")) ∈ convertSettingsToXMP settings name
      ↔ ∃ k ∈ hslKeys, findField settings k ≠ none) := by
  constructor
  · rw [serialize_hasToneCurve_mem]
    unfold hasToneCurveFlag
    simp [Bool.or_eq_true, or_assoc]
  · rw [serialize_hasSettings_mem]
    exact hasHSLFlag_iff settings hwf

/-- Witness for C8 (amended): the full default record gets both markers. -/
theorem C8_witness :
    (XNode.scalar "HasToneCurve" (SettingVal.str "True"))
      ∈ convertSettingsToXMP defaultSettingsRecord "AI Generated Preset"
    ∧ (XNode.scalar "HasSettings" (SettingVal.str "True"))
      ∈ convertSettingsToXMP defaultSettingsRecord "AI Generated Preset" := by
  have h := C8_summary_markers defaultSettingsRecord "AI Generated Preset" ⟨by decide, by decide⟩
  constructor
  · exact h.1.mpr (Or.inl (by decide))
  · exact h.2.mpr ⟨"hslHueRed", by decide, by decide⟩

/-- Counterexample to C10 as stated: the record produced for the null input
has no toneCurvePV, and its document carries no HasToneCurve marker. -/
theorem C10_counterexample :
    findField (validateAndNormalizeAISettings JVal.jnull) "toneCurvePV" = none
    ∧ ¬ ((XNode.scalar "HasToneCurve" (SettingVal.str "True"))
        ∈ convertSettingsToXMP (validateAndNormalizeAISettings JVal.jnull)
          "AI Generated Preset") := by
  constructor <;> decide

/-- C10 (amended): every normalizer output carries a known processVersion, so
the serializer's legacy "6.7" fallback is unreachable on normalizer outputs
(the emitted ProcessVersion element always equals the record's own); and for
every input passing the top-level object check the record carries a
toneCurvePV, whose truthiness (any non-empty string, in particular the default
"2012") forces the HasToneCurve marker.  On the null/non-object path the
record has no toneCurvePV and no marker; see the counterexample. -/
theorem C10_normalized_serialization (raw : JVal) (name : String) :
    (∃ s, s ∈ knownProcessVersions
      ∧ findField (validateAndNormalizeAISettings raw) "processVersion"
          = some (SettingVal.str s)
      ∧ (convertSettingsToXMP (validateAndNormalizeAISettings raw) name).filter
          (fun n => n.tag == "ProcessVersion")
        = [XNode.scalar "ProcessVersion" (SettingVal.str s)])
    ∧ (raw.typeofObject = true → raw.isNull = false →
      ∃ s, findField (validateAndNormalizeAISettings raw) "toneCurvePV"
          = some (SettingVal.str s)
        ∧ (s ≠ "" → (XNode.scalar "HasToneCurve" (SettingVal.str "True"))
            ∈ convertSettingsToXMP (validateAndNormalizeAISettings raw) name)) := by
  constructor
  · obtain ⟨s, hmem, hf⟩ := normalize_pv_known raw
    refine ⟨s, hmem, hf, ?_⟩
    rw [serialize_pv_elements]
    unfold processVersionValue
    rw [hf]
    have hne : (s == "") = false := knownPV_nonempty s hmem
    simp [truthy, hne]
  · intro h1 h2
    have hmem : FieldSpec.strF "toneCurvePV" (some "2012") ∈ fieldSpecs := by decide
    have hlook := findField_normalize raw h1 h2 _ hmem
    rw [FieldSpec.key] at hlook
    rcases hgs : getString raw "toneCurvePV" (some "2012") with _ | s
    · exact absurd (getString_none_dflt _ _ _ hgs) (by simp)
    · have hfind : findField (validateAndNormalizeAISettings raw) "toneCurvePV"
          = some (SettingVal.str s) := by
        rw [hlook, evalField, hgs]
        rfl
      refine ⟨s, hfind, ?_⟩
      intro hne
      rw [serialize_hasToneCurve_mem]
      unfold hasToneCurveFlag
      rw [hfind]
      have hb : (s == "") = false := beq_eq_false_iff_ne.mpr hne
      simp [truthyOpt, truthy, hb]

/-- Witness for C10 (amended): normalizing the empty object and serializing
emits the HasToneCurve marker. -/
theorem C10_witness :
    (XNode.scalar "HasToneCurve" (SettingVal.str "True"))
      ∈ convertSettingsToXMP (validateAndNormalizeAISettings (JVal.jobj []))
          "AI Generated Preset" := by
  obtain ⟨s, hs, hmark⟩ :=
    (C10_normalized_serialization (JVal.jobj []) "AI Generated Preset").2 rfl rfl
  have hd : findField (validateAndNormalizeAISettings (JVal.jobj [])) "toneCurvePV"
      = some (SettingVal.str "2012") := by decide
  rw [hs] at hd
  rw [Option.some.injEq, SettingVal.str.injEq] at hd
  apply hmark
  rw [hd]
  decide
